import Mathlib

set_option autoImplicit false

/-
Shallow embedding of the event-driven server core of the gRpcSvr repository
(src/EpollServer.h, src/EpollServer.cpp, src/HelloService.cpp).

Byte values are modelled as `Nat`; the 64-bit statistics counters wrap
explicitly modulo `2 ^ 64`, matching `std::atomic<uint64_t>` arithmetic.
External effects (recv/send/accept/epoll syscalls) are supplied by explicit
oracles so that each handler becomes a pure state-transition function.
-/

namespace hello

/-! ## Constants (EpollServer.h) -/

/-- Connection::RING_BUFFER_SIZE (EpollServer.h:101). -/
def RING_BUFFER_SIZE : Nat := 64

/-- Size of one element of `Connection::write_queue`: `std::array<uint8_t, 4096>`
(EpollServer.h:102). -/
def SLOT_SIZE : Nat := 4096

/-- Size of `Connection::read_buffer` (EpollServer.h:95). -/
def READ_BUFFER_SIZE : Nat := 16384

/-- EpollServer::MAX_CONNECTIONS (EpollServer.h:241). -/
def MAX_CONNECTIONS : Nat := 50000

/-- EpollServer::CONNECTION_TIMEOUT in seconds (EpollServer.h:242). -/
def CONNECTION_TIMEOUT : Int := 300

/-- Modulus of `uint64_t` arithmetic. -/
def U64 : Nat := 2 ^ 64

/-- `std::atomic<uint64_t>::fetch_add`: wrapping addition. -/
def fetchAdd (v d : Nat) : Nat := (v + d) % U64

/-- `std::atomic<uint64_t>::fetch_sub`: wrapping subtraction (argument below
`U64`). -/
def fetchSub (v d : Nat) : Nat := (v + (U64 - d % U64)) % U64

/-! ## Connection (EpollServer.h:89-166) -/

/-- Per-socket state of `struct Connection`.  The fixed-size C++ arrays are
lists whose lengths are maintained as invariants (`read_buffer` of
`READ_BUFFER_SIZE` bytes, `write_queue` of `RING_BUFFER_SIZE` slots of
`SLOT_SIZE` bytes each). -/
structure Connection where
  fd : Int
  read_buffer : List Nat
  read_pos : Nat
  write_queue : List (List Nat)
  write_head : Nat
  write_tail : Nat
  last_activity : Int
deriving Repr, DecidableEq

/-- Default-constructed `Connection()` (EpollServer.h:112-120): fd = -1,
zeroed buffers, head = tail = 0. -/
def Connection.initConn : Connection :=
  { fd := -1
    read_buffer := List.replicate READ_BUFFER_SIZE 0
    read_pos := 0
    write_queue := List.replicate RING_BUFFER_SIZE (List.replicate SLOT_SIZE 0)
    write_head := 0
    write_tail := 0
    last_activity := 0 }

/-- Connection::enqueueWrite (EpollServer.h:140-153).  Reads `write_head`,
computes `next_head = (head + 1) % RING_BUFFER_SIZE`; fails if that equals
`write_tail`; otherwise copies the first
`min (data.size()) (write_queue[head].size())` bytes of `data` into slot
`head` (leaving the remaining slot bytes untouched) and publishes
`next_head`. -/
def Connection.enqueueWrite (c : Connection) (data : List Nat) : Bool × Connection :=
  let head := c.write_head
  let next_head := (head + 1) % RING_BUFFER_SIZE
  if next_head = c.write_tail then
    (false, c)
  else
    let slot := c.write_queue.getD head []
    let data_size := min data.length slot.length
    let newSlot := data.take data_size ++ slot.drop data_size
    (true, { c with write_queue := c.write_queue.set head newSlot,
                    write_head := next_head })

/-- Connection::dequeueWrite (EpollServer.h:155-165).  Fails when
`tail = head`; otherwise returns the entire `SLOT_SIZE`-byte slot at `tail`
(`data.assign(write_queue[tail].begin(), write_queue[tail].end())`) and
publishes `(tail + 1) % RING_BUFFER_SIZE`. -/
def Connection.dequeueWrite (c : Connection) : Option (List Nat) × Connection :=
  let tail := c.write_tail
  if tail = c.write_head then
    (none, c)
  else
    (some (c.write_queue.getD tail []),
     { c with write_tail := (tail + 1) % RING_BUFFER_SIZE })

/-- Number of unconsumed slots currently held by the ring
(head/tail both below `RING_BUFFER_SIZE`). -/
def ringCount (c : Connection) : Nat :=
  (c.write_head + RING_BUFFER_SIZE - c.write_tail) % RING_BUFFER_SIZE

/-! ## Ring-buffer operation sequences (claim C1) -/

/-- One producer/consumer operation on a connection's outbound ring. -/
inductive RingOp where
  | enq (data : List Nat)
  | deq
deriving Repr, DecidableEq

/-- Run a sequence of enqueueWrite/dequeueWrite calls, maintaining the ghost
list of payloads successfully enqueued and not yet dequeued. -/
def runRing (c : Connection) (ghost : List (List Nat)) : List RingOp → Connection × List (List Nat)
  | [] => (c, ghost)
  | RingOp.enq d :: ops =>
      let r := c.enqueueWrite d
      runRing r.2 (if r.1 then ghost ++ [d] else ghost) ops
  | RingOp.deq :: ops =>
      let r := c.dequeueWrite
      runRing r.2 (match r.1 with | some _ => ghost.tail | none => ghost) ops

/-- Invariant tying a connection's ring to the ghost list of pending
payloads: indices in range, slots of `SLOT_SIZE` bytes, ghost length equals
the ring occupancy, and slot `(tail + i) % RING_BUFFER_SIZE` starts with the
first `min (payload length) SLOT_SIZE` bytes of pending payload `i`. -/
def RingInv (c : Connection) (q : List (List Nat)) : Prop :=
  c.write_head < RING_BUFFER_SIZE ∧
  c.write_tail < RING_BUFFER_SIZE ∧
  c.write_queue.length = RING_BUFFER_SIZE ∧
  (∀ s ∈ c.write_queue, s.length = SLOT_SIZE) ∧
  q.length = ringCount c ∧
  ∀ i, i < q.length →
    (c.write_queue.getD ((c.write_tail + i) % RING_BUFFER_SIZE) []).take
        (min (q.getD i []).length SLOT_SIZE)
      = (q.getD i []).take SLOT_SIZE

/-! ## Server statistics (EpollServer.h:182-198)

Only the counters touched by the modelled operations are represented; each
is a `uint64_t` updated with wrapping `fetch_add`/`fetch_sub`. -/

structure ServerStats where
  total_connections : Nat
  active_connections : Nat
  total_requests : Nat
  total_bytes_sent : Nat
  total_bytes_received : Nat
  epoll_events_processed : Nat
  lock_free_allocations : Nat
deriving Repr, DecidableEq

/-- All counters zero-initialised (EpollServer.h:183-191). -/
def ServerStats.initStats : ServerStats := ⟨0, 0, 0, 0, 0, 0, 0⟩

/-- Statistics update at EpollServer.cpp:315
(`stats_.epoll_events_processed.fetch_add(num_events)`). -/
def recordEpollEvents (stats : ServerStats) (num_events : Nat) : ServerStats :=
  { stats with epoll_events_processed := fetchAdd stats.epoll_events_processed num_events }

/-! ## Connection table (EpollServer.h:260) and close/cleanup paths -/

/-- The shared state the accept/close/reaper paths mutate: the map
`connections_` (modelled as an association list from descriptor to the
connection's `last_activity`) and the set of descriptors registered with
the epoll instance. -/
structure TableState where
  connections : List (Int × Int)
  epollReg : List Int
deriving Repr, DecidableEq

/-- EpollServer::closeConnection (EpollServer.cpp:535-546): remove from
epoll, erase the fd from `connections_`, and unconditionally decrement
`active_connections` (a wrapping `fetch_sub`). -/
def closeConnection (t : TableState) (stats : ServerStats) (fd : Int) :
    TableState × ServerStats :=
  ({ connections := t.connections.filter (fun p => !(p.1 == fd)),
     epollReg := t.epollReg.filter (fun x => !(x == fd)) },
   { stats with active_connections := fetchSub stats.active_connections 1 })

/-- Body of the second loop of cleanupInactiveConnections
(EpollServer.cpp:561-573): a fresh lookup of the fd, closing it only when
still present. -/
def closeByFd (acc : TableState × ServerStats) (fd : Int) : TableState × ServerStats :=
  match acc.1.connections.find? (fun p => p.1 == fd) with
  | some _ => closeConnection acc.1 acc.2 fd
  | none => acc

/-- EpollServer::cleanupInactiveConnections (EpollServer.cpp:548-574):
collect the descriptors whose `now - last_activity > CONNECTION_TIMEOUT`,
then close each via a fresh lookup. -/
def cleanupInactiveConnections (t : TableState) (stats : ServerStats) (now : Int) :
    TableState × ServerStats :=
  let to_close := (t.connections.filter
    (fun p => decide (CONNECTION_TIMEOUT < now - p.2))).map Prod.fst
  to_close.foldl closeByFd (t, stats)

/-! ## Memory pool (EpollServer.h:36-86) -/

/-- Pool size of `connection_pool_` (EpollServer.h:264). -/
def CONNECTION_POOL_SIZE : Nat := 10000

/-- LockFreeMemoryPool: the CAS free list, sequentially a list of free node
indices (head first), plus the `allocated_` counter. -/
structure LockFreeMemoryPool where
  freeList : List Nat
  allocated : Nat
deriving Repr, DecidableEq

/-- The constructor (EpollServer.h:49-56) threads the free list through all
`poolSize` nodes in order. -/
def LockFreeMemoryPool.initPool (poolSize : Nat) : LockFreeMemoryPool :=
  ⟨List.range poolSize, 0⟩

/-- LockFreeMemoryPool::allocate (EpollServer.h:58-70): pop the head of the
free list; `none` (nullptr) exactly when the pool is exhausted. -/
def LockFreeMemoryPool.allocate (p : LockFreeMemoryPool) :
    Option Nat × LockFreeMemoryPool :=
  match p.freeList with
  | [] => (none, p)
  | n :: rest => (some n, ⟨rest, fetchAdd p.allocated 1⟩)

/-- LockFreeMemoryPool::deallocate (EpollServer.h:72-83): push the node back
onto the head of the free list. -/
def LockFreeMemoryPool.deallocate (p : LockFreeMemoryPool) (n : Nat) :
    LockFreeMemoryPool :=
  ⟨n :: p.freeList, fetchSub p.allocated 1⟩

/-! ## Accept path (EpollServer.cpp:381-460) -/

/-- Syscall outcomes consumed by one acceptNewConnection call: the accepted
descriptor (none when `accept` fails), whether setNonBlocking and addToEpoll
succeed, and the current time recorded as `last_activity`. -/
structure AcceptEnv where
  clientFd : Option Int
  nonBlockingOk : Bool
  addToEpollOk : Bool
  now : Int
deriving Repr, DecidableEq

inductive AcceptOutcome where
  | noPending
  | rejectedFull
  | nonBlockingFailed
  | epollAddFailed
  | acceptedFromPool (node : Nat)
  | acceptedFromHeap
deriving Repr, DecidableEq

structure AcceptResult where
  table : TableState
  pool : LockFreeMemoryPool
  stats : ServerStats
  outcome : AcceptOutcome
  newFdClosed : Bool
deriving Repr, DecidableEq

/-- EpollServer::acceptNewConnection (EpollServer.cpp:381-460): reject when
the table already holds MAX_CONNECTIONS; close the socket when
setNonBlocking fails; allocate from the pool with heap fallback on
exhaustion; on addToEpoll failure close the socket (the shared_ptr deleter
returns a pool node); otherwise register, insert into the table and bump
the counters. -/
def acceptNewConnection (env : AcceptEnv) (t : TableState) (pool : LockFreeMemoryPool)
    (stats : ServerStats) : AcceptResult :=
  match env.clientFd with
  | none => ⟨t, pool, stats, AcceptOutcome.noPending, false⟩
  | some fd =>
    if MAX_CONNECTIONS ≤ t.connections.length then
      ⟨t, pool, stats, AcceptOutcome.rejectedFull, true⟩
    else if env.nonBlockingOk = false then
      ⟨t, pool, stats, AcceptOutcome.nonBlockingFailed, true⟩
    else
      match pool.allocate with
      | (some node, pool1) =>
        let stats1 := { stats with
          lock_free_allocations := fetchAdd stats.lock_free_allocations 1 }
        if env.addToEpollOk = false then
          ⟨t, pool1.deallocate node, stats1, AcceptOutcome.epollAddFailed, true⟩
        else
          ⟨{ connections := (fd, env.now) :: t.connections.filter (fun p => !(p.1 == fd)),
             epollReg := fd :: t.epollReg },
           pool1,
           { stats1 with
             total_connections := fetchAdd stats1.total_connections 1,
             active_connections := fetchAdd stats1.active_connections 1 },
           AcceptOutcome.acceptedFromPool node, false⟩
      | (none, pool1) =>
        if env.addToEpollOk = false then
          ⟨t, pool1, stats, AcceptOutcome.epollAddFailed, true⟩
        else
          ⟨{ connections := (fd, env.now) :: t.connections.filter (fun p => !(p.1 == fd)),
             epollReg := fd :: t.epollReg },
           pool1,
           { stats with
             total_connections := fetchAdd stats.total_connections 1,
             active_connections := fetchAdd stats.active_connections 1 },
           AcceptOutcome.acceptedFromHeap, false⟩

/-! ## startServer (EpollServer.cpp:18-150) -/

/-- EpollServer::NUM_WORKER_THREADS (EpollServer.h:273). -/
def NUM_WORKER_THREADS : Nat := 8

/-- The server state that startServer can create or tear down: the running
flags, the started threads, and the descriptors currently held open. -/
structure ServerStateFlags where
  running : Bool
  cleanup_running : Bool
  workerThreads : Nat
  cleanupThread : Bool
  openFds : List Int
deriving Repr, DecidableEq

/-- Syscall outcomes consumed by one startServer call, in program order:
socket(), the two mandatory setsockopt calls, TCP_NODELAY (failure only
logged), setNonBlocking, bind, listen, epoll_create1, and the epoll_ctl ADD
of the listening socket. -/
structure SetupEnv where
  socketFd : Option Int
  reuseAddrOk : Bool
  reusePortOk : Bool
  nodelayOk : Bool
  nonBlockingOk : Bool
  bindOk : Bool
  listenOk : Bool
  epollFd : Option Int
  addListenOk : Bool
deriving Repr, DecidableEq

/-- `close(fd)` on the set of open descriptors. -/
def closeFd (l : List Int) (fd : Int) : List Int := l.filter (fun x => !(x == fd))

/-- EpollServer::startServer (EpollServer.cpp:18-150): returns false at once
when already running; on each socket-setup failure closes what it opened
and returns false; on success sets the running flags, starts the 8 worker
threads and the cleanup thread. -/
def startServer (st : ServerStateFlags) (env : SetupEnv) : Bool × ServerStateFlags :=
  if st.running then (false, st)
  else
    match env.socketFd with
    | none => (false, st)
    | some sfd =>
      let st1 := { st with openFds := sfd :: st.openFds }
      if env.reuseAddrOk = false then (false, { st1 with openFds := closeFd st1.openFds sfd })
      else if env.reusePortOk = false then (false, { st1 with openFds := closeFd st1.openFds sfd })
      else if env.nonBlockingOk = false then (false, { st1 with openFds := closeFd st1.openFds sfd })
      else if env.bindOk = false then (false, { st1 with openFds := closeFd st1.openFds sfd })
      else if env.listenOk = false then (false, { st1 with openFds := closeFd st1.openFds sfd })
      else
        match env.epollFd with
        | none => (false, { st1 with openFds := closeFd st1.openFds sfd })
        | some epfd =>
          let st2 := { st1 with openFds := epfd :: st1.openFds }
          if env.addListenOk = false then
            (false, { st2 with openFds := closeFd (closeFd st2.openFds epfd) sfd })
          else
            (true, { st2 with
              running := true,
              cleanup_running := true,
              workerThreads := st.workerThreads + NUM_WORKER_THREADS,
              cleanupThread := true })

/-! ## gRPC request processing (EpollServer.cpp:583-678, HelloService.cpp) -/

/-- Bytes of a string (one byte per character in the modelled messages). -/
def strBytes (msg : String) : List Nat := msg.data.map (fun ch => ch.toNat)

/-- HelloServiceImpl::SayHello message construction (HelloService.cpp:21-25). -/
def generateHelloMessage (nm : String) (age : Nat) : String :=
  "Hello, " ++ nm ++ "! You are " ++ toString age ++ " years old. Welcome to gRPC!"

/-- EpollServer::parseGrpcRequest (EpollServer.cpp:655-678): rejects inputs
shorter than 5 bytes, otherwise calls SayHello with the fixed request
(name "EpollClient", age 25) and returns its message. -/
def parseGrpcRequest (data : List Nat) : String :=
  if data.length < 5 then "Invalid request"
  else generateHelloMessage "EpollClient" 25

/-- EpollServer::createGrpcResponse (EpollServer.cpp:627-653): a 9-byte
HTTP/2 DATA frame header, 4 gRPC status bytes, then the message bytes. -/
def createGrpcResponse (msg : String) : List Nat :=
  let payload_length := (msg.length + 4) % 2 ^ 32
  [payload_length / 2 ^ 16 % 256, payload_length / 2 ^ 8 % 256, payload_length % 256,
   0, 1, 0, 0, 0, 1, 0, 0, 0, 0] ++ strBytes msg

/-- pre_compiled_hello_response_ (EpollServer.cpp:52). -/
def preCompiledHelloResponse : List Nat :=
  createGrpcResponse "Hello from HFT-optimized server!"

/-- pre_compiled_error_response_ (EpollServer.cpp:53). -/
def preCompiledErrorResponse : List Nat :=
  createGrpcResponse "Error processing request"

/-- Substring search, as `std::string::find` returning whether the pattern
occurs. -/
def hasSub (pat : List Nat) : List Nat → Bool
  | [] => pat == []
  | a :: rest => pat == (a :: rest).take pat.length || hasSub pat rest

/-- The check `std::string(data.begin() + 9, data.begin() + 20).find("hello")
!= npos` (EpollServer.cpp:598). -/
def sliceHasHello (data : List Nat) : Bool :=
  hasSub (strBytes "hello") ((data.drop 9).take 11)

/-- The response payload processGrpcRequest selects for a request
(EpollServer.cpp:587-604): `none` when the frame is shorter than 9 bytes or
its type byte `data[3]` is not 1 (HEADERS); otherwise the pre-compiled hello
response for "hello" requests, else the response built from
parseGrpcRequest. -/
def handlerOutput (data : List Nat) : Option (List Nat) :=
  if data.length < 9 then none
  else if data.getD 3 0 = 1 then
    some (if 20 < data.length ∧ sliceHasHello data = true then preCompiledHelloResponse
          else createGrpcResponse (parseGrpcRequest data))
  else none

structure ProcessResult where
  conn : Connection
  stats : ServerStats
  enqueueCalls : List (List Nat)
  writeEventAdded : Bool
deriving Repr, DecidableEq

/-- EpollServer::processGrpcRequest (EpollServer.cpp:583-625): for a HEADERS
frame, enqueue the selected response (falling back to the pre-compiled
error response when the ring is full), re-arm the epoll registration for
write-readiness and count the request. `enqueueCalls` records the payloads
passed to enqueueWrite, in order. -/
def processGrpcRequest (c : Connection) (stats : ServerStats) (data : List Nat) :
    ProcessResult :=
  match handlerOutput data with
  | none => ⟨c, stats, [], false⟩
  | some resp =>
      let r := c.enqueueWrite resp
      if r.1 then
        ⟨r.2, { stats with total_requests := fetchAdd stats.total_requests 1 },
         [resp], true⟩
      else
        let r2 := r.2.enqueueWrite preCompiledErrorResponse
        ⟨r2.2, { stats with total_requests := fetchAdd stats.total_requests 1 },
         [resp, preCompiledErrorResponse], true⟩

/-! ## Read path (EpollServer.cpp:462-493) -/

/-- Outcome of one non-blocking `recv` call: data (empty = the peer closed,
recv returned 0), EAGAIN/EWOULDBLOCK, or another error. -/
inductive RecvRes where
  | bytes (l : List Nat)
  | wouldBlock
  | errOther
deriving Repr, DecidableEq

structure ReadResult where
  conn : Connection
  stats : ServerStats
  processedData : List (List Nat)
  enqueueCalls : List (List Nat)
  writeEventAdded : Bool
  closed : Bool
deriving Repr, DecidableEq

/-- EpollServer::handleClientData (EpollServer.cpp:462-493): drain recv into
the pre-allocated read buffer at `read_pos`; after each successful recv,
pass the accumulated `read_pos` bytes to processGrpcRequest and reset the
cursor; a zero-byte read or a hard error closes the connection;
EAGAIN/EWOULDBLOCK ends the drain.  `processedData` records the data
arguments passed to processGrpcRequest. -/
def handleClientData (c : Connection) (stats : ServerStats) :
    List RecvRes → ReadResult
  | [] => ⟨c, stats, [], [], false, false⟩
  | RecvRes.bytes l :: rest =>
      let space := c.read_buffer.length - c.read_pos
      let taken := l.take space
      if taken.length = 0 then
        ⟨c, stats, [], [], false, true⟩
      else
        let buf := c.read_buffer.take c.read_pos ++ taken ++
          c.read_buffer.drop (c.read_pos + taken.length)
        let c1 := { c with read_buffer := buf, read_pos := c.read_pos + taken.length }
        let stats1 := { stats with
          total_bytes_received := fetchAdd stats.total_bytes_received taken.length }
        let data := c1.read_buffer.take c1.read_pos
        let pr := processGrpcRequest c1 stats1 data
        let c2 := { pr.conn with read_pos := 0 }
        let r := handleClientData c2 pr.stats rest
        ⟨r.conn, r.stats, data :: r.processedData, pr.enqueueCalls ++ r.enqueueCalls,
         pr.writeEventAdded || r.writeEventAdded, r.closed⟩
  | RecvRes.wouldBlock :: _ => ⟨c, stats, [], [], false, false⟩
  | RecvRes.errOther :: _ => ⟨c, stats, [], [], false, true⟩

/-! ## Write path (EpollServer.cpp:495-533) -/

/-- Outcome of one non-blocking `send` call: EAGAIN/EWOULDBLOCK, a hard
error, or `n` bytes sent. -/
inductive SendRes where
  | wouldBlock
  | errOther
  | sent (n : Nat)
deriving Repr, DecidableEq

inductive WriteExit where
  | queueEmpty
  | broke
  | closedConn
  | oracleOut
deriving Repr, DecidableEq

/-- The drain loop of handleClientWrite (EpollServer.cpp:501-524): dequeue
and send until the queue is empty; would-block re-enqueues the payload and
breaks; a partial send re-enqueues the remainder, counts the sent bytes and
breaks; a hard error closes the connection; a complete send counts the
bytes and continues.  `WriteExit.oracleOut` marks runs that exhaust the
modelled send outcomes with the queue still non-empty. -/
def writeLoop (c : Connection) (stats : ServerStats) :
    List SendRes → Connection × ServerStats × WriteExit
  | [] =>
      match c.dequeueWrite with
      | (none, c1) => (c1, stats, WriteExit.queueEmpty)
      | (some _, _) => (c, stats, WriteExit.oracleOut)
  | o :: rest =>
      match c.dequeueWrite with
      | (none, c1) => (c1, stats, WriteExit.queueEmpty)
      | (some d, c1) =>
        match o with
        | SendRes.wouldBlock => ((c1.enqueueWrite d).2, stats, WriteExit.broke)
        | SendRes.errOther => (c1, stats, WriteExit.closedConn)
        | SendRes.sent n =>
          if n < d.length then
            ((c1.enqueueWrite (d.drop n)).2,
             { stats with total_bytes_sent := fetchAdd stats.total_bytes_sent n },
             WriteExit.broke)
          else
            writeLoop c1
              { stats with total_bytes_sent := fetchAdd stats.total_bytes_sent n } rest

structure WriteResult where
  conn : Connection
  stats : ServerStats
  closed : Bool
  deregisteredWrite : Bool
  droppedByEmptinessCheck : Option (List Nat)
deriving Repr, DecidableEq

/-- EpollServer::handleClientWrite (EpollServer.cpp:495-533): run the drain
loop; unless it closed the connection, run the final
`if (!conn->dequeueWrite(data))` check — when that dequeue fails the write
interest is de-registered (epoll MOD back to EPOLLIN|EPOLLET), and when it
succeeds the dequeued payload is discarded (recorded in
`droppedByEmptinessCheck`). -/
def handleClientWrite (c : Connection) (stats : ServerStats) (oracle : List SendRes) :
    WriteResult :=
  let r := writeLoop c stats oracle
  match r.2.2 with
  | WriteExit.closedConn => ⟨r.1, r.2.1, true, false, none⟩
  | _ =>
    match r.1.dequeueWrite with
    | (none, c2) => ⟨c2, r.2.1, false, true, none⟩
    | (some d, c2) => ⟨c2, r.2.1, false, false, some d⟩

/-! ## Counter bounds for the monotonicity claim (C9) -/

/-- Total bytes an oracle of recv outcomes can deliver. -/
def recvBytesBound : List RecvRes → Nat
  | [] => 0
  | RecvRes.bytes l :: rest => l.length + recvBytesBound rest
  | _ :: rest => recvBytesBound rest

/-- Total bytes an oracle of send outcomes can report as sent. -/
def sentBytesBound : List SendRes → Nat
  | [] => 0
  | SendRes.sent n :: rest => n + sentBytesBound rest
  | _ :: rest => sentBytesBound rest

/-- Pointwise order on the five counters the spec names as monotonic,
excluding the active-connections gauge. -/
def countersLE (a b : ServerStats) : Prop :=
  a.total_connections ≤ b.total_connections ∧
  a.total_requests ≤ b.total_requests ∧
  a.total_bytes_sent ≤ b.total_bytes_sent ∧
  a.total_bytes_received ≤ b.total_bytes_received ∧
  a.epoll_events_processed ≤ b.epoll_events_processed

/-! ## List helper lemmas -/

theorem getD_set_self {α : Type} (l : List α) (i : Nat) (a d : α) (h : i < l.length) :
    (l.set i a).getD i d = a := by
  simp [List.getD_eq_getElem?_getD, List.getElem?_set_self h]

theorem getD_set_ne {α : Type} (l : List α) (i j : Nat) (a d : α) (h : i ≠ j) :
    (l.set i a).getD j d = l.getD j d := by
  simp [List.getD_eq_getElem?_getD, List.getElem?_set_ne h]

theorem getD_mem {α : Type} (l : List α) (i : Nat) (d : α) (h : i < l.length) :
    l.getD i d ∈ l := by
  rw [List.getD_eq_getElem?_getD, List.getElem?_eq_getElem h]
  exact List.getElem_mem h

theorem set_getD_self {α : Type} (l : List α) (i : Nat) (d : α) (h : i < l.length) :
    l.set i (l.getD i d) = l := by
  apply List.ext_getElem?
  intro n
  by_cases hn : i = n
  · subst hn
    rw [List.getElem?_set_self h, List.getD_eq_getElem?_getD, List.getElem?_eq_getElem h]
    rfl
  · rw [List.getElem?_set_ne hn]

theorem getD_append_length {α : Type} (l : List α) (a d : α) :
    (l ++ [a]).getD l.length d = a := by
  rw [List.getD_eq_getElem?_getD, List.getElem?_append]
  simp

theorem take_min_self {α : Type} (l : List α) (n : Nat) :
    l.take (min l.length n) = l.take n := by
  rcases le_total l.length n with h | h
  · rw [min_eq_left h, List.take_length, List.take_of_length_le h]
  · rw [min_eq_right h]

theorem RingInv_init : RingInv Connection.initConn [] := by
  refine ⟨?_, ?_, ?_, ?_, ?_, ?_⟩
  · simp [Connection.initConn, RING_BUFFER_SIZE]
  · simp [Connection.initConn, RING_BUFFER_SIZE]
  · simp [Connection.initConn]
  · intro s hs
    simp only [Connection.initConn] at hs
    rw [List.eq_of_mem_replicate hs]
    simp
  · simp [Connection.initConn, ringCount]
  · intro i hi
    simp at hi

theorem enqueueWrite_false_iff (c : Connection) (q : List (List Nat)) (d : List Nat)
    (inv : RingInv c q) :
    (c.enqueueWrite d).1 = false ↔ q.length = RING_BUFFER_SIZE - 1 := by
  obtain ⟨h1, h2, _, _, h5, _⟩ := inv
  simp only [Connection.enqueueWrite, RING_BUFFER_SIZE]
  unfold ringCount RING_BUFFER_SIZE at *
  by_cases hc : (c.write_head + 1) % 64 = c.write_tail
  · rw [if_pos hc]
    constructor
    · intro _; omega
    · intro _; rfl
  · rw [if_neg hc]
    constructor
    · intro h; exact absurd h (by simp)
    · intro h; exact absurd (by omega : (c.write_head + 1) % 64 = c.write_tail) hc

theorem enqueueWrite_not_ok (c : Connection) (d : List Nat)
    (hc : (c.enqueueWrite d).1 = false) : (c.enqueueWrite d).2 = c := by
  simp only [Connection.enqueueWrite, RING_BUFFER_SIZE] at *
  by_cases h : (c.write_head + 1) % 64 = c.write_tail
  · rw [if_pos h]
  · rw [if_neg h] at hc
    exact absurd hc (by simp)

theorem enqueueWrite_ok_inv (c : Connection) (q : List (List Nat)) (d : List Nat)
    (inv : RingInv c q) (hc : (c.enqueueWrite d).1 = true) :
    RingInv (c.enqueueWrite d).2 (q ++ [d]) := by
  obtain ⟨h1, h2, h3, h4, h5, h6⟩ := inv
  simp only [ringCount, RING_BUFFER_SIZE, SLOT_SIZE] at h1 h2 h3 h4 h5 h6
  simp only [Connection.enqueueWrite, RING_BUFFER_SIZE] at hc ⊢
  by_cases hfull : (c.write_head + 1) % 64 = c.write_tail
  · rw [if_pos hfull] at hc
    exact absurd hc (by simp)
  · have hslotlen : (c.write_queue.getD c.write_head []).length = 4096 :=
      h4 _ (getD_mem _ _ _ (by omega))
    rw [if_neg hfull]
    unfold RingInv ringCount RING_BUFFER_SIZE SLOT_SIZE
    dsimp only
    refine ⟨by omega, h2, by simpa using h3, ?_, ?_, ?_⟩
    · intro s hs
      rcases List.mem_or_eq_of_mem_set hs with hs | hs
      · exact h4 s hs
      · subst hs
        rw [List.length_append, List.length_take, List.length_drop, hslotlen]
        omega
    · simp only [List.length_append, List.length_singleton]
      omega
    · intro i hi
      simp only [List.length_append, List.length_singleton] at hi
      by_cases hiq : i < q.length
      · have hne : c.write_head ≠ (c.write_tail + i) % 64 := by omega
        rw [getD_set_ne _ _ _ _ _ hne, List.getD_append _ _ _ _ hiq]
        exact h6 i hiq
      · have hieq : i = q.length := by omega
        subst hieq
        have hidx : (c.write_tail + q.length) % 64 = c.write_head := by omega
        rw [hidx, getD_set_self _ _ _ _ (by omega), getD_append_length]
        rw [hslotlen, List.take_append_of_le_length (by rw [List.length_take]; omega),
          List.take_take, min_self]
        exact take_min_self d 4096

theorem dequeueWrite_none (c : Connection) (q : List (List Nat)) (inv : RingInv c q)
    (hq : q = []) : (c.dequeueWrite).1 = none ∧ (c.dequeueWrite).2 = c := by
  obtain ⟨h1, h2, _, _, h5, _⟩ := inv
  subst hq
  unfold ringCount RING_BUFFER_SIZE at *
  have hte : c.write_tail = c.write_head := by
    simp only [List.length_nil] at h5; omega
  simp [Connection.dequeueWrite, hte]

theorem dequeueWrite_cons (c : Connection) (q : List (List Nat)) (inv : RingInv c q)
    (p : List Nat) (q' : List (List Nat)) (hq : q = p :: q') :
    (c.dequeueWrite).1 = some (c.write_queue.getD c.write_tail []) ∧
    (c.write_queue.getD c.write_tail []).length = SLOT_SIZE ∧
    (c.write_queue.getD c.write_tail []).take (min p.length SLOT_SIZE) = p.take SLOT_SIZE ∧
    RingInv (c.dequeueWrite).2 q' := by
  obtain ⟨h1, h2, h3, h4, h5, h6⟩ := inv
  subst hq
  unfold ringCount RING_BUFFER_SIZE SLOT_SIZE at *
  simp only [List.length_cons] at h5
  have hne : ¬ (c.write_tail = c.write_head) := by
    intro h; omega
  have h0 := h6 0 (by simp)
  simp only [Nat.add_zero, List.getD_cons_zero] at h0
  rw [Nat.mod_eq_of_lt h2] at h0
  simp only [Connection.dequeueWrite, RING_BUFFER_SIZE]
  rw [if_neg hne]
  dsimp only
  refine ⟨rfl, h4 _ (getD_mem _ _ _ (by omega)), h0, ?_⟩
  unfold RingInv ringCount RING_BUFFER_SIZE SLOT_SIZE
  dsimp only
  refine ⟨h1, by omega, h3, h4, by omega, ?_⟩
  intro i hi
  have hidx : ((c.write_tail + 1) % 64 + i) % 64 = (c.write_tail + (i + 1)) % 64 := by
    omega
  rw [hidx]
  have hstep := h6 (i + 1) (by simp only [List.length_cons]; omega)
  simpa using hstep

theorem runRing_inv (ops : List RingOp) :
    ∀ (c : Connection) (q : List (List Nat)), RingInv c q →
      RingInv (runRing c q ops).1 (runRing c q ops).2 := by
  induction ops with
  | nil => intro c q inv; simpa [runRing] using inv
  | cons op ops ih =>
    intro c q inv
    cases op with
    | enq d =>
      simp only [runRing]
      cases hok : (c.enqueueWrite d).1 with
      | true =>
        simp only [hok, if_true]
        exact ih _ _ (enqueueWrite_ok_inv c q d inv hok)
      | false =>
        simp only [hok, Bool.false_eq_true, if_false, enqueueWrite_not_ok c d hok]
        exact ih _ _ inv
    | deq =>
      simp only [runRing]
      cases hq : q with
      | nil =>
        subst hq
        obtain ⟨hn, hs⟩ := dequeueWrite_none c [] inv rfl
        rw [hn, hs]
        exact ih _ _ inv
      | cons p q' =>
        obtain ⟨hd, _, _, hinv⟩ := dequeueWrite_cons c q inv p q' hq
        rw [hd]
        exact ih _ _ hinv

/-- Claim C1 (amended): for every sequence of enqueueWrite/dequeueWrite calls
on one Connection's outbound ring buffer (single producer/consumer), each
successful dequeue returns a `SLOT_SIZE`-byte vector whose first
`min (payload length) SLOT_SIZE` bytes are exactly those of the oldest
not-yet-dequeued successful enqueue (FIFO order), and enqueueWrite returns
false exactly when the ring holds `RING_BUFFER_SIZE - 1` unconsumed items.
The original data-equality claim fails because dequeueWrite always returns
the whole 4096-byte slot (see the counterexample). -/
theorem C1_ring_fifo (ops : List RingOp) :
    (∀ d, (((runRing Connection.initConn [] ops).1.enqueueWrite d).1 = false ↔
          (runRing Connection.initConn [] ops).2.length = RING_BUFFER_SIZE - 1)) ∧
    (((runRing Connection.initConn [] ops).1.dequeueWrite).1 = none ↔
          (runRing Connection.initConn [] ops).2 = []) ∧
    (∀ p q', (runRing Connection.initConn [] ops).2 = p :: q' →
       ∃ r, ((runRing Connection.initConn [] ops).1.dequeueWrite).1 = some r ∧
            r.length = SLOT_SIZE ∧
            r.take (min p.length SLOT_SIZE) = p.take SLOT_SIZE) := by
  have inv := runRing_inv ops Connection.initConn [] RingInv_init
  refine ⟨fun d => enqueueWrite_false_iff _ _ d inv, ⟨?_, ?_⟩, fun p q' hq => ?_⟩
  · intro hn
    cases hqq : (runRing Connection.initConn [] ops).2 with
    | nil => rfl
    | cons p q' =>
      obtain ⟨hd, _, _, _⟩ := dequeueWrite_cons _ _ inv p q' hqq
      rw [hd] at hn
      cases hn
  · intro hq
    exact (dequeueWrite_none _ _ inv hq).1
  · obtain ⟨hd, hlen, hpre, _⟩ := dequeueWrite_cons _ _ inv p q' hq
    exact ⟨_, hd, hlen, hpre⟩

/-- Witness for C1: after enqueuing the payload `[1]` into a fresh ring, the
FIFO clause applies with that payload pending. -/
theorem C1_ring_fifo_witness :
    ∃ r, (((runRing Connection.initConn [] [RingOp.enq [1]]).1.dequeueWrite).1 = some r ∧
          r.length = SLOT_SIZE ∧
          r.take (min ([1] : List Nat).length SLOT_SIZE) = ([1] : List Nat).take SLOT_SIZE) :=
  (C1_ring_fifo [RingOp.enq [1]]).2.2 [1] []
    (by norm_num [runRing, Connection.enqueueWrite, Connection.initConn, RING_BUFFER_SIZE])

/-- Counterexample to C1 as stated: enqueuing the 1-byte payload `[1]` into a
fresh ring succeeds, but the subsequent dequeue does not return `[1]` (it
returns the full 4096-byte slot). -/
theorem C1_counterexample :
    ((Connection.initConn.enqueueWrite [1]).1 = true) ∧
    (((Connection.initConn.enqueueWrite [1]).2.dequeueWrite).1 ≠ some [1]) := by
  have hok : (Connection.initConn.enqueueWrite [1]).1 = true := by
    norm_num [Connection.enqueueWrite, Connection.initConn, RING_BUFFER_SIZE]
  refine ⟨hok, ?_⟩
  intro hcon
  have hinv := enqueueWrite_ok_inv Connection.initConn [] [1] RingInv_init hok
  obtain ⟨hd, hlen, _, _⟩ := dequeueWrite_cons _ _ hinv [1] [] rfl
  rw [hd] at hcon
  rw [Option.some.inj hcon] at hlen
  simp [SLOT_SIZE] at hlen

/-! ## Pointwise evaluation lemmas for the ring operations (claim C10) -/

theorem getD_replicate {α : Type} (n i : Nat) (a d : α) (h : i < n) :
    (List.replicate n a).getD i d = a := by
  simp [List.getD_eq_getElem?_getD, List.getElem?_replicate, h]

theorem enqueueWrite_eval (c : Connection) (d : List Nat)
    (hne : ¬ ((c.write_head + 1) % RING_BUFFER_SIZE = c.write_tail)) :
    c.enqueueWrite d = (true,
      { c with
        write_queue := c.write_queue.set c.write_head
          (d.take (min d.length (c.write_queue.getD c.write_head []).length) ++
            (c.write_queue.getD c.write_head []).drop
              (min d.length (c.write_queue.getD c.write_head []).length)),
        write_head := (c.write_head + 1) % RING_BUFFER_SIZE }) := by
  simp only [Connection.enqueueWrite]
  rw [if_neg hne]

theorem dequeueWrite_ne (c : Connection) (hne : ¬ (c.write_tail = c.write_head)) :
    c.dequeueWrite = (some (c.write_queue.getD c.write_tail []),
      { c with write_tail := (c.write_tail + 1) % RING_BUFFER_SIZE }) := by
  simp only [Connection.dequeueWrite]
  rw [if_neg hne]

theorem enqueueWrite_nil_eval (c : Connection)
    (hne : ¬ ((c.write_head + 1) % RING_BUFFER_SIZE = c.write_tail))
    (hh : c.write_head < c.write_queue.length) :
    c.enqueueWrite [] = (true, { c with write_head := (c.write_head + 1) % RING_BUFFER_SIZE }) := by
  rw [enqueueWrite_eval c [] hne]
  simp only [List.length_nil, Nat.zero_min, List.take_nil, List.drop_zero, List.nil_append]
  rw [set_getD_self _ _ _ hh]

theorem runRing_nil (c : Connection) (g : List (List Nat)) : runRing c g [] = (c, g) := rfl

theorem runRing_enq_step (c : Connection) (g : List (List Nat)) (d : List Nat)
    (ops : List RingOp) :
    runRing c g (RingOp.enq d :: ops)
      = runRing (c.enqueueWrite d).2
          (if (c.enqueueWrite d).1 then g ++ [d] else g) ops := rfl

theorem runRing_deq_step (c : Connection) (g : List (List Nat)) (ops : List RingOp) :
    runRing c g (RingOp.deq :: ops)
      = runRing (c.dequeueWrite).2
          (match (c.dequeueWrite).1 with | some _ => g.tail | none => g) ops := rfl

/-- A successful enqueue of `d` immediately followed by a dequeue, starting
and ending with an empty ring. -/
theorem runRing_first_pair (c : Connection) (d : List Nat) (rest : List RingOp)
    (hne : ¬ ((c.write_head + 1) % RING_BUFFER_SIZE = c.write_tail))
    (hne2 : ¬ (c.write_tail = (c.write_head + 1) % RING_BUFFER_SIZE)) :
    runRing c [] (RingOp.enq d :: RingOp.deq :: rest)
      = runRing { c with
          write_queue := c.write_queue.set c.write_head
            (d.take (min d.length (c.write_queue.getD c.write_head []).length) ++
              (c.write_queue.getD c.write_head []).drop
                (min d.length (c.write_queue.getD c.write_head []).length)),
          write_head := (c.write_head + 1) % RING_BUFFER_SIZE,
          write_tail := (c.write_tail + 1) % RING_BUFFER_SIZE } [] rest := by
  rw [runRing_enq_step, enqueueWrite_eval c d hne]
  dsimp only
  rw [if_pos (rfl : (true : Bool) = true)]
  rw [runRing_deq_step]
  rw [dequeueWrite_ne _ (by dsimp only; exact hne2)]
  dsimp only
  rfl

/-- One `enqueueWrite []` followed by one `dequeueWrite` on an empty ring
advances both indices by one and leaves the slots untouched. -/
theorem runRing_idle_pair (c : Connection) (rest : List RingOp)
    (h : c.write_head = c.write_tail) (ht : c.write_tail < 64)
    (hq : c.write_queue.length = 64) :
    runRing c [] (RingOp.enq [] :: RingOp.deq :: rest)
      = runRing { c with write_head := (c.write_tail + 1) % 64,
                         write_tail := (c.write_tail + 1) % 64 } [] rest := by
  have hne : ¬ ((c.write_head + 1) % RING_BUFFER_SIZE = c.write_tail) := by
    unfold RING_BUFFER_SIZE
    omega
  simp only [runRing, enqueueWrite_nil_eval c hne (by omega), RING_BUFFER_SIZE]
  rw [h]
  have hne2 : ¬ (({ c with write_head := (c.write_tail + 1) % 64 } : Connection).write_tail
      = ({ c with write_head := (c.write_tail + 1) % 64 } : Connection).write_head) := by
    dsimp only
    omega
  simp only [dequeueWrite_ne _ hne2, RING_BUFFER_SIZE]
  norm_num

/-- Running `k` idle enqueue/dequeue pairs from an empty ring advances both
indices by `k (mod 64)` and leaves the slots untouched. -/
theorem runRing_idle_cycles (k : Nat) : ∀ (c : Connection) (rest : List RingOp),
    c.write_head = c.write_tail → c.write_tail < 64 → c.write_queue.length = 64 →
    runRing c [] ((List.replicate k [RingOp.enq [], RingOp.deq]).flatten ++ rest)
      = runRing { c with write_head := (c.write_tail + k) % 64,
                         write_tail := (c.write_tail + k) % 64 } [] rest := by
  induction k with
  | zero =>
    intro c rest h ht hq
    rcases c with ⟨cf, crb, crp, cwq, cwh, cwt, cla⟩
    simp only at h ht
    subst h
    simp only [List.replicate_zero, List.flatten_nil, List.nil_append, Nat.add_zero,
      Nat.mod_eq_of_lt ht]
  | succ k ih =>
    intro c rest h ht hq
    rw [List.replicate_succ, List.flatten_cons]
    simp only [List.cons_append, List.nil_append]
    rw [runRing_idle_pair c _ h ht hq]
    rw [ih _ rest rfl (by dsimp only; omega) (by simpa using hq)]
    have hidx : ((c.write_tail + 1) % 64 + k) % 64 = (c.write_tail + (k + 1)) % 64 := by
      omega
    dsimp only
    rw [hidx]

/-- Claim C10 (amended): ring slots have a fixed 4096-byte size.  For every
reachable ring state and every payload, a successful enqueueWrite stores
exactly the first `min (payload length) SLOT_SIZE` bytes of the payload at
the head slot, leaving the remaining slot bytes unchanged from their
previous contents (they are zero only until the slot is first reused — the
original "zero-padding" claim fails, see the counterexample), and every
successful dequeueWrite returns a vector of exactly `SLOT_SIZE` bytes. -/
theorem C10_slot_truncation (ops : List RingOp) (d : List Nat) :
    (((runRing Connection.initConn [] ops).1.enqueueWrite d).1 = true →
      ((runRing Connection.initConn [] ops).1.enqueueWrite d).2.write_queue.getD
          (runRing Connection.initConn [] ops).1.write_head []
        = d.take (min d.length SLOT_SIZE) ++
          ((runRing Connection.initConn [] ops).1.write_queue.getD
            (runRing Connection.initConn [] ops).1.write_head []).drop
              (min d.length SLOT_SIZE)) ∧
    (((runRing Connection.initConn [] ops).1.dequeueWrite).1 ≠ none →
      (((runRing Connection.initConn [] ops).1.dequeueWrite).1.getD []).length
        = SLOT_SIZE) := by
  have inv := runRing_inv ops Connection.initConn [] RingInv_init
  obtain ⟨h1, h2, h3, h4, _, _⟩ := inv
  constructor
  · intro hok
    have hne : ¬ (((runRing Connection.initConn [] ops).1.write_head + 1) % RING_BUFFER_SIZE
        = (runRing Connection.initConn [] ops).1.write_tail) := by
      intro hco
      rw [Connection.enqueueWrite] at hok
      rw [if_pos hco] at hok
      exact absurd hok (by simp)
    rw [enqueueWrite_eval _ d hne]
    dsimp only
    rw [getD_set_self _ _ _ _ (by unfold RING_BUFFER_SIZE at h1 h3; omega)]
    have hslotlen : ((runRing Connection.initConn [] ops).1.write_queue.getD
        (runRing Connection.initConn [] ops).1.write_head []).length = SLOT_SIZE :=
      h4 _ (getD_mem _ _ _ (by unfold RING_BUFFER_SIZE at h1 h3; omega))
    rw [hslotlen]
  · intro hne
    rcases hg : (runRing Connection.initConn [] ops).2 with _ | ⟨p, q⟩
    · obtain ⟨hn, _⟩ := dequeueWrite_none _ _ (runRing_inv ops Connection.initConn [] RingInv_init) hg
      exact absurd hn hne
    · obtain ⟨hd, hlen, _, _⟩ :=
        dequeueWrite_cons _ _ (runRing_inv ops Connection.initConn [] RingInv_init) p q hg
      rw [hd]
      simpa using hlen

/-- Witness for C10: in a ring holding one previous payload, enqueuing `[5]`
stores its single byte at the head slot, and the pending dequeue returns a
4096-byte vector. -/
theorem C10_slot_truncation_witness :
    (((runRing Connection.initConn [] [RingOp.enq [3]]).1.enqueueWrite [5]).2.write_queue.getD
          (runRing Connection.initConn [] [RingOp.enq [3]]).1.write_head []
        = ([5] : List Nat).take (min ([5] : List Nat).length SLOT_SIZE) ++
          ((runRing Connection.initConn [] [RingOp.enq [3]]).1.write_queue.getD
            (runRing Connection.initConn [] [RingOp.enq [3]]).1.write_head []).drop
              (min ([5] : List Nat).length SLOT_SIZE)) ∧
    ((((runRing Connection.initConn [] [RingOp.enq [3]]).1.dequeueWrite).1.getD []).length
        = SLOT_SIZE) :=
  ⟨(C10_slot_truncation [RingOp.enq [3]] [5]).1
      (by norm_num [runRing, Connection.enqueueWrite, Connection.initConn, RING_BUFFER_SIZE]),
   (C10_slot_truncation [RingOp.enq [3]] [5]).2
      (by norm_num [runRing, Connection.enqueueWrite, Connection.dequeueWrite,
        Connection.initConn, RING_BUFFER_SIZE, Option.some_ne_none])⟩

/-- Counterexample to C10 as stated: after the ring wraps around (64
enqueue/dequeue pairs, the first with payload `[7, 8, 9]`), enqueuing the
1-byte payload `[5]` reuses slot 0; the dequeued slot's byte at index 1 is
the stale byte 8 from the earlier payload, not the 0 that zero-padding
would give. -/
theorem C10_counterexample :
    (((runRing Connection.initConn []
        (RingOp.enq [7, 8, 9] :: RingOp.deq ::
          ((List.replicate 63 [RingOp.enq [], RingOp.deq]).flatten ++
            [RingOp.enq [5]]))).1.dequeueWrite).1.getD []).getD 1 0 = 8 ∧
    ([5] ++ List.replicate (SLOT_SIZE - 1) 0).getD 1 0 = 0 := by
  constructor
  · rw [runRing_first_pair Connection.initConn [7, 8, 9] _
      (by norm_num [Connection.initConn, RING_BUFFER_SIZE])
      (by norm_num [Connection.initConn, RING_BUFFER_SIZE])]
    rw [runRing_idle_cycles 63 _ [RingOp.enq [5]] rfl
      (by norm_num [Connection.initConn, RING_BUFFER_SIZE])
      (by simp [Connection.initConn, RING_BUFFER_SIZE])]
    rw [runRing_enq_step]
    rw [enqueueWrite_eval _ [5]
      (by norm_num [Connection.initConn, RING_BUFFER_SIZE])]
    dsimp only
    rw [runRing_nil]
    dsimp only
    rw [dequeueWrite_ne _ (by norm_num [Connection.initConn, RING_BUFFER_SIZE])]
    dsimp only
    norm_num [Connection.initConn, RING_BUFFER_SIZE, SLOT_SIZE, READ_BUFFER_SIZE,
      List.getD_eq_getElem?_getD, List.getElem?_set_self, List.getElem?_set_ne,
      List.getElem?_replicate, List.drop_replicate, List.take_replicate,
      List.getElem?_append, List.length_set, List.length_replicate, List.length_append,
      List.take_succ_cons, List.take_zero, List.drop_succ_cons, List.drop_zero,
      List.cons_append, List.nil_append]
  · norm_num [SLOT_SIZE, List.getD_eq_getElem?_getD, List.getElem?_append,
      List.getElem?_replicate]

/-! ## Connection table lemmas (claims C5, C6) -/

theorem closeByFd_connections (acc : TableState × ServerStats) (fd : Int) :
    (closeByFd acc fd).1.connections
      = acc.1.connections.filter (fun p => !(p.1 == fd)) := by
  unfold closeByFd
  cases hf : acc.1.connections.find? (fun p => p.1 == fd) with
  | some p => rfl
  | none =>
    dsimp only
    rw [eq_comm, List.filter_eq_self]
    intro p hp
    have := List.find?_eq_none.mp hf p hp
    simpa using this

theorem foldl_closeByFd_connections (fds : List Int) :
    ∀ acc : TableState × ServerStats,
    ((fds.foldl closeByFd acc).1).connections
      = acc.1.connections.filter (fun p => !(fds.contains p.1)) := by
  induction fds with
  | nil =>
    intro acc
    simp [List.contains]
  | cons fd fds ih =>
    intro acc
    rw [List.foldl_cons, ih (closeByFd acc fd), closeByFd_connections,
      List.filter_filter]
    congr 1
    funext p
    rw [List.contains_cons, Bool.not_or, Bool.and_comm]

theorem eq_of_keyNodup (l : List (Int × Int)) (hnd : (l.map Prod.fst).Nodup)
    (p q : Int × Int) (hp : p ∈ l) (hq : q ∈ l) (hk : p.1 = q.1) : p = q := by
  induction l with
  | nil => cases hp
  | cons a tl ih =>
    rw [List.map_cons, List.nodup_cons] at hnd
    rcases List.mem_cons.mp hp with hp1 | hp1 <;>
      rcases List.mem_cons.mp hq with hq1 | hq1
    · rw [hp1, hq1]
    · exact absurd (List.mem_map.mpr ⟨q, hq1, by rw [← hk, hp1]⟩) hnd.1
    · exact absurd (List.mem_map.mpr ⟨p, hp1, by rw [hk, hq1]⟩) hnd.1
    · exact ih hnd.2 hp1 hq1

/-- Claim C5 (the code violates it): closing the same connection twice is
not idempotent.  From a table holding fd 5 and one active connection, the
first closeConnection empties the table and sets the active count to 0; the
second closeConnection decrements the counter again, wrapping it to
2^64 - 1 instead of leaving the state unchanged. -/
theorem C5_close_not_idempotent :
    (closeConnection ⟨[(5, 0)], [5]⟩ ⟨1, 1, 0, 0, 0, 0, 0⟩ 5).1.connections = [] ∧
    (closeConnection ⟨[(5, 0)], [5]⟩ ⟨1, 1, 0, 0, 0, 0, 0⟩ 5).2.active_connections = 0 ∧
    (closeConnection (closeConnection ⟨[(5, 0)], [5]⟩ ⟨1, 1, 0, 0, 0, 0, 0⟩ 5).1
        (closeConnection ⟨[(5, 0)], [5]⟩ ⟨1, 1, 0, 0, 0, 0, 0⟩ 5).2 5).2.active_connections
      = 2 ^ 64 - 1 := by
  refine ⟨rfl, ?_, ?_⟩ <;> decide

/-- Claim C6: a connection whose last-activity timestamp is older than the
idle timeout when the reaper cycle runs is closed by that cycle (its fd is
gone from the table); a connection active within the timeout is never
closed by the reaper. -/
theorem C6_reaper (t : TableState) (stats : ServerStats) (now : Int) (fd la : Int)
    (hnd : (t.connections.map Prod.fst).Nodup)
    (hmem : (fd, la) ∈ t.connections) :
    (CONNECTION_TIMEOUT < now - la →
      ∀ p ∈ (cleanupInactiveConnections t stats now).1.connections, p.1 ≠ fd) ∧
    (¬ (CONNECTION_TIMEOUT < now - la) →
      (fd, la) ∈ (cleanupInactiveConnections t stats now).1.connections) := by
  have htab : (cleanupInactiveConnections t stats now).1.connections
      = t.connections.filter (fun p =>
          !(((t.connections.filter (fun q => decide (CONNECTION_TIMEOUT < now - q.2))).map
              Prod.fst).contains p.1)) := by
    unfold cleanupInactiveConnections
    exact foldl_closeByFd_connections _ (t, stats)
  constructor
  · intro hstale p hp hpfd
    rw [htab] at hp
    have hmemf := (List.mem_filter.mp hp).2
    have hin : fd ∈ (t.connections.filter
        (fun q => decide (CONNECTION_TIMEOUT < now - q.2))).map Prod.fst :=
      List.mem_map.mpr ⟨(fd, la), List.mem_filter.mpr ⟨hmem, by simpa using hstale⟩, rfl⟩
    have hcont : ((t.connections.filter
        (fun q => decide (CONNECTION_TIMEOUT < now - q.2))).map Prod.fst).contains fd
        = true := by
      simpa [List.elem_iff] using hin
    simp only [hpfd] at hmemf
    rw [hcont] at hmemf
    simp at hmemf
  · intro hfresh
    rw [htab]
    refine List.mem_filter.mpr ⟨hmem, ?_⟩
    simp only [Bool.not_eq_true']
    by_contra hcon
    have hmem2 : fd ∈ (t.connections.filter
        (fun q => decide (CONNECTION_TIMEOUT < now - q.2))).map Prod.fst := by
      have : ((t.connections.filter
          (fun q => decide (CONNECTION_TIMEOUT < now - q.2))).map Prod.fst).contains fd
          = true := by
        cases h2 : ((t.connections.filter
            (fun q => decide (CONNECTION_TIMEOUT < now - q.2))).map Prod.fst).contains fd
        · exact absurd h2 hcon
        · rfl
      simpa [List.elem_iff] using this
    obtain ⟨q, hq, hqfd⟩ := List.mem_map.mp hmem2
    have hqmem := (List.mem_filter.mp hq).1
    have hqcond := (List.mem_filter.mp hq).2
    have : q = (fd, la) := eq_of_keyNodup t.connections hnd q (fd, la) hqmem hmem (by simpa using hqfd)
    rw [this] at hqcond
    simp at hqcond
    exact hfresh hqcond

/-- Witness for C6: with fd 1 idle for 301 seconds and fd 2 idle for 10
seconds at time 1000, the reaper closes fd 1 and keeps fd 2. -/
theorem C6_reaper_witness :
    (∀ p ∈ (cleanupInactiveConnections ⟨[(1, 699), (2, 990)], [1, 2]⟩
        ServerStats.initStats 1000).1.connections, p.1 ≠ 1) ∧
    ((2 : Int), (990 : Int)) ∈ (cleanupInactiveConnections ⟨[(1, 699), (2, 990)], [1, 2]⟩
        ServerStats.initStats 1000).1.connections :=
  ⟨(C6_reaper ⟨[(1, 699), (2, 990)], [1, 2]⟩ ServerStats.initStats 1000 1 699
      (by decide) (by decide)).1 (by decide),
   (C6_reaper ⟨[(1, 699), (2, 990)], [1, 2]⟩ ServerStats.initStats 1000 2 990
      (by decide) (by decide)).2 (by decide)⟩

/-! ## Accept path theorems (claims C4, C7) -/

/-- Claim C4: LockFreeMemoryPool::allocate never blocks (it is a total
function of the pool state) and returns null exactly when the free list is
exhausted; and when the pool is exhausted the accept path falls back to a
fresh heap allocation instead of rejecting or dropping the connection. -/
theorem C4_pool_exhaustion_fallback :
    (∀ p : LockFreeMemoryPool, (p.allocate).1 = none ↔ p.freeList = []) ∧
    (∀ (env : AcceptEnv) (t : TableState) (pool : LockFreeMemoryPool)
       (stats : ServerStats) (fd : Int),
      env.clientFd = some fd →
      pool.freeList = [] →
      t.connections.length < MAX_CONNECTIONS →
      env.nonBlockingOk = true →
      env.addToEpollOk = true →
      (acceptNewConnection env t pool stats).outcome = AcceptOutcome.acceptedFromHeap) := by
  constructor
  · intro p
    cases hp : p.freeList with
    | nil => simp [LockFreeMemoryPool.allocate, hp]
    | cons n rest => simp [LockFreeMemoryPool.allocate, hp]
  · intro env t pool stats fd hfd hpool hlt hnb hadd
    have hall : pool.allocate = (none, pool) := by
      unfold LockFreeMemoryPool.allocate
      rw [hpool]
    unfold acceptNewConnection
    rw [hfd]
    dsimp only
    rw [if_neg (by omega), hnb, hall, hadd]
    rfl

/-- Witness for C4: allocating from an exhausted pool yields null, and an
accept attempt with that pool succeeds from the heap. -/
theorem C4_pool_exhaustion_fallback_witness :
    ((LockFreeMemoryPool.mk [] 7).allocate.1 = none ↔
      (LockFreeMemoryPool.mk [] 7).freeList = []) ∧
    (acceptNewConnection ⟨some 7, true, true, 0⟩ ⟨[], []⟩ ⟨[], 10000⟩
        ServerStats.initStats).outcome = AcceptOutcome.acceptedFromHeap :=
  ⟨C4_pool_exhaustion_fallback.1 ⟨[], 7⟩,
   C4_pool_exhaustion_fallback.2 ⟨some 7, true, true, 0⟩ ⟨[], []⟩ ⟨[], 10000⟩
     ServerStats.initStats 7 rfl rfl (by norm_num [MAX_CONNECTIONS]) rfl rfl⟩

/-- Claim C7: an accept attempt while the table already holds
MAX_CONNECTIONS entries closes the new socket and rejects it, leaving the
table, the pool and the statistics exactly unchanged. -/
theorem C7_reject_at_capacity (env : AcceptEnv) (t : TableState)
    (pool : LockFreeMemoryPool) (stats : ServerStats) (fd : Int)
    (hfd : env.clientFd = some fd)
    (hfull : MAX_CONNECTIONS ≤ t.connections.length) :
    acceptNewConnection env t pool stats
      = ⟨t, pool, stats, AcceptOutcome.rejectedFull, true⟩ := by
  unfold acceptNewConnection
  rw [hfd]
  dsimp only
  rw [if_pos hfull]

/-- Witness for C7: a table of 50000 connections rejects descriptor 9. -/
theorem C7_reject_at_capacity_witness :
    acceptNewConnection ⟨some 9, true, true, 0⟩
        ⟨List.replicate 50000 ((0 : Int), (0 : Int)), []⟩ ⟨[0, 1, 2], 3⟩
        ServerStats.initStats
      = ⟨⟨List.replicate 50000 ((0 : Int), (0 : Int)), []⟩, ⟨[0, 1, 2], 3⟩,
         ServerStats.initStats, AcceptOutcome.rejectedFull, true⟩ :=
  C7_reject_at_capacity ⟨some 9, true, true, 0⟩
    ⟨List.replicate 50000 ((0 : Int), (0 : Int)), []⟩ ⟨[0, 1, 2], 3⟩
    ServerStats.initStats 9 rfl
    (by show MAX_CONNECTIONS ≤ (List.replicate 50000 ((0 : Int), (0 : Int))).length
        rw [List.length_replicate]
        norm_num [MAX_CONNECTIONS])

/-! ## startServer theorems (claim C8) -/

theorem closeFd_cons_self (l : List Int) (fd : Int) (h : fd ∉ l) :
    closeFd (fd :: l) fd = l := by
  unfold closeFd
  rw [List.filter_cons_of_neg (by simp)]
  rw [List.filter_eq_self]
  intro x hx
  simp only [Bool.not_eq_true', beq_eq_false_iff_ne, ne_eq]
  intro hxf
  exact h (hxf ▸ hx)

theorem startServer_cases (st : ServerStateFlags) (env : SetupEnv)
    (hs : ∀ sfd, env.socketFd = some sfd → sfd ∉ st.openFds)
    (he : ∀ epfd, env.epollFd = some epfd → epfd ∉ st.openFds)
    (hse : ∀ sfd epfd, env.socketFd = some sfd → env.epollFd = some epfd → sfd ≠ epfd)
    (hr : st.running = false) :
    startServer st env = (false, st) ∨ (startServer st env).1 = true := by
  simp only [startServer]
  rw [if_neg (by rw [hr]; simp)]
  cases hsfd : env.socketFd with
  | none => exact Or.inl rfl
  | some sfd =>
    have hsf := hs sfd hsfd
    dsimp only
    by_cases h1 : env.reuseAddrOk = false
    · rw [if_pos h1]
      dsimp only
      rw [closeFd_cons_self _ _ hsf]
      exact Or.inl rfl
    · rw [if_neg h1]
      by_cases h2 : env.reusePortOk = false
      · rw [if_pos h2]
        dsimp only
        rw [closeFd_cons_self _ _ hsf]
        exact Or.inl rfl
      · rw [if_neg h2]
        by_cases h3 : env.nonBlockingOk = false
        · rw [if_pos h3]
          dsimp only
          rw [closeFd_cons_self _ _ hsf]
          exact Or.inl rfl
        · rw [if_neg h3]
          by_cases h4 : env.bindOk = false
          · rw [if_pos h4]
            dsimp only
            rw [closeFd_cons_self _ _ hsf]
            exact Or.inl rfl
          · rw [if_neg h4]
            by_cases h5 : env.listenOk = false
            · rw [if_pos h5]
              dsimp only
              rw [closeFd_cons_self _ _ hsf]
              exact Or.inl rfl
            · rw [if_neg h5]
              cases hep : env.epollFd with
              | none =>
                dsimp only
                rw [closeFd_cons_self _ _ hsf]
                exact Or.inl rfl
              | some epfd =>
                dsimp only
                by_cases h6 : env.addListenOk = false
                · rw [if_pos h6]
                  dsimp only
                  have hepf : epfd ∉ sfd :: st.openFds := by
                    intro hmem
                    rcases List.mem_cons.mp hmem with hmem | hmem
                    · exact hse sfd epfd hsfd hep (hmem.symm)
                    · exact he epfd hep hmem
                  rw [closeFd_cons_self _ _ hepf, closeFd_cons_self _ _ hsf]
                  exact Or.inl rfl
                · rw [if_neg h6]
                  exact Or.inr rfl

/-- Claim C8: startServer returns false without modifying server state when
the server is already running; and on any socket-setup failure (socket
create, setsockopt, setNonBlocking, bind, listen, epoll create, epoll
registration) it returns false and leaves the server state exactly as it
was — running flag false, no worker or cleanup threads started, and no
descriptor left open.  The freshness hypotheses say the kernel returns
descriptors that are not already held open. -/
theorem C8_start_fails_clean (st : ServerStateFlags) (env : SetupEnv)
    (hs : ∀ sfd, env.socketFd = some sfd → sfd ∉ st.openFds)
    (he : ∀ epfd, env.epollFd = some epfd → epfd ∉ st.openFds)
    (hse : ∀ sfd epfd, env.socketFd = some sfd → env.epollFd = some epfd → sfd ≠ epfd) :
    (st.running = true → startServer st env = (false, st)) ∧
    (st.running = false → (startServer st env).1 = false →
      (startServer st env).2 = st) := by
  constructor
  · intro hr
    unfold startServer
    rw [if_pos hr]
  · intro hr hfail
    rcases startServer_cases st env hs he hse hr with h | h
    · rw [h]
    · rw [h] at hfail
      cases hfail

/-- Witness for C8: a running server refuses a second start untouched, and
a failed socket() call leaves a fresh server state exactly unchanged. -/
theorem C8_start_fails_clean_witness :
    startServer ⟨true, true, 8, true, [3, 4]⟩ ⟨none, true, true, true, true, true, true, none, true⟩
      = (false, ⟨true, true, 8, true, [3, 4]⟩) ∧
    (startServer ⟨false, false, 0, false, []⟩
        ⟨none, true, true, true, true, true, true, none, true⟩).2
      = ⟨false, false, 0, false, []⟩ :=
  ⟨(C8_start_fails_clean ⟨true, true, 8, true, [3, 4]⟩
      ⟨none, true, true, true, true, true, true, none, true⟩
      (fun _ h => Option.noConfusion h) (fun _ h => Option.noConfusion h)
      (fun _ _ h _ => Option.noConfusion h)).1 rfl,
   (C8_start_fails_clean ⟨false, false, 0, false, []⟩
      ⟨none, true, true, true, true, true, true, none, true⟩
      (fun _ h => Option.noConfusion h) (fun _ h => Option.noConfusion h)
      (fun _ _ h _ => Option.noConfusion h)).2 rfl rfl⟩

/-! ## Read-path evaluation (claims C2, C3) -/

theorem hcd_wb (c : Connection) (stats : ServerStats) (rest : List RecvRes) :
    handleClientData c stats (RecvRes.wouldBlock :: rest)
      = ⟨c, stats, [], [], false, false⟩ := rfl

theorem hcd_bytes (c : Connection) (stats : ServerStats) (l : List Nat)
    (rest : List RecvRes) :
    handleClientData c stats (RecvRes.bytes l :: rest)
      = if (l.take (c.read_buffer.length - c.read_pos)).length = 0 then
          ⟨c, stats, [], [], false, true⟩
        else
          let taken := l.take (c.read_buffer.length - c.read_pos)
          let buf := c.read_buffer.take c.read_pos ++ taken ++
            c.read_buffer.drop (c.read_pos + taken.length)
          let c1 : Connection := { c with read_buffer := buf, read_pos := c.read_pos + taken.length }
          let data := c1.read_buffer.take c1.read_pos
          let pr := processGrpcRequest c1
            { stats with total_bytes_received := fetchAdd stats.total_bytes_received taken.length }
            data
          let r := handleClientData { pr.conn with read_pos := 0 } pr.stats rest
          ⟨r.conn, r.stats, data :: r.processedData, pr.enqueueCalls ++ r.enqueueCalls,
           pr.writeEventAdded || r.writeEventAdded, r.closed⟩ := rfl

theorem enqueueWrite_ok_of (c : Connection) (d : List Nat)
    (h : ¬ ((c.write_head + 1) % RING_BUFFER_SIZE = c.write_tail)) :
    (c.enqueueWrite d).1 = true := by
  unfold Connection.enqueueWrite
  rw [if_neg h]

theorem processGrpc_none (c : Connection) (stats : ServerStats) (data : List Nat)
    (h : handlerOutput data = none) :
    processGrpcRequest c stats data = ⟨c, stats, [], false⟩ := by
  unfold processGrpcRequest
  rw [h]

theorem processGrpc_some (c : Connection) (stats : ServerStats) (data : List Nat)
    (resp : List Nat) (h : handlerOutput data = some resp)
    (hok : (c.enqueueWrite resp).1 = true) :
    processGrpcRequest c stats data
      = ⟨(c.enqueueWrite resp).2,
         { stats with total_requests := fetchAdd stats.total_requests 1 },
         [resp], true⟩ := by
  unfold processGrpcRequest
  rw [h]
  dsimp only
  rw [hok, if_pos rfl]

/-- The connection state after the single recv of `l` bytes into a fresh
connection, just before processGrpcRequest runs. -/
def conn1 (l : List Nat) : Connection :=
  { Connection.initConn with
    read_buffer := l ++ List.drop l.length (List.replicate READ_BUFFER_SIZE 0),
    read_pos := l.length }

theorem handleClientData_single (l : List Nat) (stats : ServerStats)
    (h0 : l ≠ []) (hlen : l.length ≤ READ_BUFFER_SIZE) :
    (handleClientData Connection.initConn stats
        [RecvRes.bytes l, RecvRes.wouldBlock]).processedData = [l] ∧
    (handleClientData Connection.initConn stats
        [RecvRes.bytes l, RecvRes.wouldBlock]).enqueueCalls = (handlerOutput l).toList ∧
    ∀ resp, handlerOutput l = some resp →
      RingInv (handleClientData Connection.initConn stats
        [RecvRes.bytes l, RecvRes.wouldBlock]).conn [resp] := by
  have hbuf : Connection.initConn.read_buffer = List.replicate READ_BUFFER_SIZE 0 := rfl
  have hpos : Connection.initConn.read_pos = 0 := rfl
  rw [hcd_bytes, hbuf, hpos, List.length_replicate, Nat.sub_zero,
    List.take_of_length_le hlen, if_neg (by simpa using h0)]
  dsimp only
  rw [List.take_zero, List.nil_append, Nat.zero_add, List.take_left]
  have hc1 : (⟨Connection.initConn.fd,
      l ++ List.drop l.length (List.replicate READ_BUFFER_SIZE 0), l.length,
      Connection.initConn.write_queue, Connection.initConn.write_head,
      Connection.initConn.write_tail, Connection.initConn.last_activity⟩ : Connection)
      = conn1 l := rfl
  rw [hc1]
  rcases hout : handlerOutput l with _ | resp
  · rw [processGrpc_none _ _ _ hout]
    dsimp only
    rw [hcd_wb]
    exact ⟨rfl, rfl, fun resp h => Option.noConfusion h⟩
  · have hne1 : ¬ (((conn1 l).write_head + 1) % RING_BUFFER_SIZE = (conn1 l).write_tail) := by
      norm_num [conn1, Connection.initConn, RING_BUFFER_SIZE]
    have hok : ((conn1 l).enqueueWrite resp).1 = true := enqueueWrite_ok_of _ _ hne1
    rw [processGrpc_some _ _ _ resp hout hok]
    dsimp only
    rw [hcd_wb]
    refine ⟨rfl, rfl, ?_⟩
    intro resp' h
    obtain rfl : resp = resp' := Option.some.inj h
    have base : RingInv (conn1 l) [] := RingInv_init
    exact enqueueWrite_ok_inv (conn1 l) [] resp base hok

/-- Claim C3 (amended): when a fresh connection receives its N bytes in one
drain (one recv delivering all N bytes, then EWOULDBLOCK), the request
handler is invoked exactly once with exactly those N bytes, and
enqueueWrite is invoked with exactly the handler's declared output — but
what the outbound queue then holds is that output padded to the fixed
4096-byte slot (its first min(|output|, 4096) bytes are the output), not
the output verbatim (see the counterexample). -/
theorem C3_read_path (l : List Nat) (stats : ServerStats)
    (h0 : l ≠ []) (hlen : l.length ≤ READ_BUFFER_SIZE) :
    (handleClientData Connection.initConn stats
        [RecvRes.bytes l, RecvRes.wouldBlock]).processedData = [l] ∧
    (handleClientData Connection.initConn stats
        [RecvRes.bytes l, RecvRes.wouldBlock]).enqueueCalls = (handlerOutput l).toList ∧
    ∀ resp, handlerOutput l = some resp →
      ∃ r, ((handleClientData Connection.initConn stats
          [RecvRes.bytes l, RecvRes.wouldBlock]).conn.dequeueWrite).1 = some r ∧
        r.length = SLOT_SIZE ∧
        r.take (min resp.length SLOT_SIZE) = resp.take SLOT_SIZE := by
  obtain ⟨h1, h2, h3⟩ := handleClientData_single l stats h0 hlen
  refine ⟨h1, h2, ?_⟩
  intro resp hresp
  obtain ⟨hd, hlen2, hpre, _⟩ := dequeueWrite_cons _ [resp] (h3 resp hresp) resp [] rfl
  exact ⟨_, hd, hlen2, hpre⟩

/-- Witness for C3: a 9-byte HEADERS frame is processed once and its
response (the SayHello reply framed by createGrpcResponse) is passed to
enqueueWrite. -/
theorem C3_read_path_witness :
    (handleClientData Connection.initConn ServerStats.initStats
        [RecvRes.bytes [0, 0, 0, 1, 0, 0, 0, 0, 0], RecvRes.wouldBlock]).processedData
      = [[0, 0, 0, 1, 0, 0, 0, 0, 0]] ∧
    ∃ r, ((handleClientData Connection.initConn ServerStats.initStats
        [RecvRes.bytes [0, 0, 0, 1, 0, 0, 0, 0, 0], RecvRes.wouldBlock]).conn.dequeueWrite).1
          = some r ∧
      r.length = SLOT_SIZE ∧
      r.take (min (createGrpcResponse (parseGrpcRequest [0, 0, 0, 1, 0, 0, 0, 0, 0])).length
          SLOT_SIZE)
        = (createGrpcResponse (parseGrpcRequest [0, 0, 0, 1, 0, 0, 0, 0, 0])).take SLOT_SIZE :=
  ⟨(C3_read_path [0, 0, 0, 1, 0, 0, 0, 0, 0] ServerStats.initStats (by decide)
      (by norm_num [READ_BUFFER_SIZE])).1,
   (C3_read_path [0, 0, 0, 1, 0, 0, 0, 0, 0] ServerStats.initStats (by decide)
      (by norm_num [READ_BUFFER_SIZE])).2.2
     (createGrpcResponse (parseGrpcRequest [0, 0, 0, 1, 0, 0, 0, 0, 0])) rfl⟩

/-- Counterexample to C3 as stated: for the 9-byte HEADERS frame, the
handler's declared output is the 71-byte response, and enqueueWrite is
called with exactly it, but the payload the queue then holds (what
dequeueWrite returns) is 4096 bytes long — it is not exactly the handler's
output. -/
theorem C3_counterexample :
    (handleClientData Connection.initConn ServerStats.initStats
        [RecvRes.bytes [0, 0, 0, 1, 0, 0, 0, 0, 0], RecvRes.wouldBlock]).enqueueCalls
      = [createGrpcResponse (parseGrpcRequest [0, 0, 0, 1, 0, 0, 0, 0, 0])] ∧
    (createGrpcResponse (parseGrpcRequest [0, 0, 0, 1, 0, 0, 0, 0, 0])).length = 71 ∧
    (((handleClientData Connection.initConn ServerStats.initStats
        [RecvRes.bytes [0, 0, 0, 1, 0, 0, 0, 0, 0], RecvRes.wouldBlock]).conn.dequeueWrite).1.getD
      []).length = SLOT_SIZE := by
  obtain ⟨h1, h2, h3⟩ := handleClientData_single [0, 0, 0, 1, 0, 0, 0, 0, 0]
    ServerStats.initStats (by decide) (by norm_num [READ_BUFFER_SIZE])
  refine ⟨by rw [h2]; rfl, by decide, ?_⟩
  obtain ⟨hd, hlen2, _, _⟩ := dequeueWrite_cons _
    [createGrpcResponse (parseGrpcRequest [0, 0, 0, 1, 0, 0, 0, 0, 0])]
    (h3 (createGrpcResponse (parseGrpcRequest [0, 0, 0, 1, 0, 0, 0, 0, 0])) rfl)
    (createGrpcResponse (parseGrpcRequest [0, 0, 0, 1, 0, 0, 0, 0, 0])) [] rfl
  rw [hd]
  simpa using hlen2

/-! ## Write-path evaluation (claim C2) -/

theorem writeLoop_cons (c : Connection) (stats : ServerStats) (o : SendRes)
    (rest : List SendRes) :
    writeLoop c stats (o :: rest)
      = match c.dequeueWrite with
        | (none, c1) => (c1, stats, WriteExit.queueEmpty)
        | (some d, c1) =>
          match o with
          | SendRes.wouldBlock => ((c1.enqueueWrite d).2, stats, WriteExit.broke)
          | SendRes.errOther => (c1, stats, WriteExit.closedConn)
          | SendRes.sent n =>
            if n < d.length then
              ((c1.enqueueWrite (d.drop n)).2,
               { stats with total_bytes_sent := fetchAdd stats.total_bytes_sent n },
               WriteExit.broke)
            else
              writeLoop c1
                { stats with total_bytes_sent := fetchAdd stats.total_bytes_sent n }
                rest := rfl

/-- Claim C2 (the code violates its last conjunct): with one queued payload
and a send that would block, the payload is re-enqueued and draining stops
— but the final emptiness check `if (!conn->dequeueWrite(data))` consumes
and discards the re-enqueued payload: afterwards the ring is empty, the
payload is gone, and write-readiness interest was NOT de-registered. -/
theorem C2_write_path_drops_payload :
    (handleClientWrite (Connection.initConn.enqueueWrite [42]).2 ServerStats.initStats
        [SendRes.wouldBlock]).droppedByEmptinessCheck.isSome = true ∧
    ringCount (handleClientWrite (Connection.initConn.enqueueWrite [42]).2 ServerStats.initStats
        [SendRes.wouldBlock]).conn = 0 ∧
    (handleClientWrite (Connection.initConn.enqueueWrite [42]).2 ServerStats.initStats
        [SendRes.wouldBlock]).deregisteredWrite = false ∧
    (handleClientWrite (Connection.initConn.enqueueWrite [42]).2 ServerStats.initStats
        [SendRes.wouldBlock]).closed = false := by
  rw [enqueueWrite_eval Connection.initConn [42]
    (by norm_num [Connection.initConn, RING_BUFFER_SIZE])]
  dsimp only
  unfold handleClientWrite
  rw [writeLoop_cons]
  rw [dequeueWrite_ne _ (by norm_num [Connection.initConn, RING_BUFFER_SIZE])]
  dsimp only
  rw [enqueueWrite_eval _ _ (by norm_num [Connection.initConn, RING_BUFFER_SIZE])]
  dsimp only
  rw [dequeueWrite_ne _ (by norm_num [Connection.initConn, RING_BUFFER_SIZE])]
  dsimp only
  refine ⟨rfl, ?_, rfl, rfl⟩
  norm_num [ringCount, Connection.initConn, RING_BUFFER_SIZE]

/-! ## Statistics monotonicity (claim C9) -/

theorem countersLE_refl (s : ServerStats) : countersLE s s :=
  ⟨le_refl _, le_refl _, le_refl _, le_refl _, le_refl _⟩

theorem countersLE_trans {a b c : ServerStats} (h1 : countersLE a b) (h2 : countersLE b c) :
    countersLE a c :=
  ⟨le_trans h1.1 h2.1, le_trans h1.2.1 h2.2.1, le_trans h1.2.2.1 h2.2.2.1,
   le_trans h1.2.2.2.1 h2.2.2.2.1, le_trans h1.2.2.2.2 h2.2.2.2.2⟩

theorem fetchAdd_eq (v d : Nat) (h : v + d < U64) : fetchAdd v d = v + d := by
  unfold fetchAdd
  exact Nat.mod_eq_of_lt h

theorem fetchAdd_le (v d : Nat) (h : v + d < U64) : v ≤ fetchAdd v d := by
  rw [fetchAdd_eq v d h]
  omega

theorem processGrpcRequest_stats (c : Connection) (stats : ServerStats) (data : List Nat) :
    (processGrpcRequest c stats data).stats = stats ∨
    (processGrpcRequest c stats data).stats
      = { stats with total_requests := fetchAdd stats.total_requests 1 } := by
  unfold processGrpcRequest
  cases handlerOutput data with
  | none => exact Or.inl rfl
  | some resp =>
    dsimp only
    split
    · exact Or.inr rfl
    · exact Or.inr rfl

theorem hcd_err (c : Connection) (stats : ServerStats) (rest : List RecvRes) :
    handleClientData c stats (RecvRes.errOther :: rest)
      = ⟨c, stats, [], [], false, true⟩ := rfl

theorem handleClientData_stats_mono (oracle : List RecvRes) :
    ∀ (c : Connection) (stats : ServerStats),
    stats.total_bytes_received + recvBytesBound oracle < U64 →
    stats.total_requests + oracle.length < U64 →
    countersLE stats (handleClientData c stats oracle).stats := by
  induction oracle with
  | nil =>
    intro c stats _ _
    exact countersLE_refl stats
  | cons o rest ih =>
    intro c stats hbr htr
    cases o with
    | wouldBlock =>
      rw [hcd_wb]
      exact countersLE_refl stats
    | errOther =>
      rw [hcd_err]
      exact countersLE_refl stats
    | bytes l =>
      rw [hcd_bytes]
      split
      · exact countersLE_refl stats
      · dsimp only
        have hk : (l.take (c.read_buffer.length - c.read_pos)).length ≤ l.length := by
          rw [List.length_take]
          exact min_le_right _ _
        have hbound : recvBytesBound (RecvRes.bytes l :: rest)
            = l.length + recvBytesBound rest := rfl
        rw [hbound] at hbr
        have hbr1 : stats.total_bytes_received
            + (l.take (c.read_buffer.length - c.read_pos)).length < U64 := by omega
        have hfa : fetchAdd stats.total_bytes_received
            (l.take (c.read_buffer.length - c.read_pos)).length
            = stats.total_bytes_received
              + (l.take (c.read_buffer.length - c.read_pos)).length :=
          fetchAdd_eq _ _ (by omega)
        have hstep1 : countersLE stats
            { stats with
              total_bytes_received := fetchAdd stats.total_bytes_received
                  (l.take (c.read_buffer.length - c.read_pos)).length } := by
          refine ⟨le_refl _, le_refl _, le_refl _, ?_, le_refl _⟩
          dsimp only
          rw [hfa]
          omega
        rcases processGrpcRequest_stats
            { c with
              read_buffer := c.read_buffer.take c.read_pos ++
                l.take (c.read_buffer.length - c.read_pos) ++
                c.read_buffer.drop (c.read_pos +
                  (l.take (c.read_buffer.length - c.read_pos)).length),
              read_pos := c.read_pos + (l.take (c.read_buffer.length - c.read_pos)).length }
            { stats with
              total_bytes_received := fetchAdd stats.total_bytes_received
                  (l.take (c.read_buffer.length - c.read_pos)).length }
            ((c.read_buffer.take c.read_pos ++
                l.take (c.read_buffer.length - c.read_pos) ++
                c.read_buffer.drop (c.read_pos +
                  (l.take (c.read_buffer.length - c.read_pos)).length)).take
              (c.read_pos + (l.take (c.read_buffer.length - c.read_pos)).length))
          with hpr | hpr
        · rw [hpr]
          refine countersLE_trans hstep1 (ih _ _ ?_ ?_)
          · dsimp only
            rw [hfa]
            omega
          · dsimp only
            simp only [List.length_cons] at htr
            omega
        · rw [hpr]
          refine countersLE_trans hstep1 (countersLE_trans ?_ (ih _ _ ?_ ?_))
          · refine ⟨le_refl _, ?_, le_refl _, le_refl _, le_refl _⟩
            dsimp only
            exact fetchAdd_le _ _ (by simp only [List.length_cons] at htr; omega)
          · dsimp only
            rw [hfa]
            omega
          · dsimp only
            rw [fetchAdd_eq _ _ (by simp only [List.length_cons] at htr; omega)]
            simp only [List.length_cons] at htr
            omega

theorem writeLoop_nil_stats (c : Connection) (stats : ServerStats) :
    (writeLoop c stats []).2.1 = stats := by
  rcases hdq : c.dequeueWrite with ⟨_ | d, c1⟩ <;> simp only [writeLoop, hdq]

theorem writeLoop_stats_mono (oracle : List SendRes) :
    ∀ (c : Connection) (stats : ServerStats),
    stats.total_bytes_sent + sentBytesBound oracle < U64 →
    countersLE stats (writeLoop c stats oracle).2.1 := by
  induction oracle with
  | nil =>
    intro c stats _
    rw [writeLoop_nil_stats]
    exact countersLE_refl stats
  | cons o rest ih =>
    intro c stats h
    rw [writeLoop_cons]
    rcases hdq : c.dequeueWrite with ⟨_ | d, c1⟩
    · exact countersLE_refl stats
    · dsimp only
      cases o with
      | wouldBlock => exact countersLE_refl stats
      | errOther => exact countersLE_refl stats
      | sent n =>
        dsimp only
        have hbound : sentBytesBound (SendRes.sent n :: rest)
            = n + sentBytesBound rest := rfl
        rw [hbound] at h
        split
        · refine ⟨le_refl _, le_refl _, ?_, le_refl _, le_refl _⟩
          exact fetchAdd_le stats.total_bytes_sent n (by omega)
        · refine countersLE_trans ?_ (ih _ _ ?_)
          · refine ⟨le_refl _, le_refl _, ?_, le_refl _, le_refl _⟩
            exact fetchAdd_le stats.total_bytes_sent n (by omega)
          · dsimp only
            rw [fetchAdd_eq stats.total_bytes_sent n (by omega)]
            omega

theorem handleClientWrite_stats (c : Connection) (stats : ServerStats)
    (oracle : List SendRes) :
    (handleClientWrite c stats oracle).stats = (writeLoop c stats oracle).2.1 := by
  unfold handleClientWrite
  rcases hw : writeLoop c stats oracle with ⟨c1, stats1, ex⟩
  dsimp only
  cases ex
  · rcases hdq : c1.dequeueWrite with ⟨_ | d, c2⟩ <;> rfl
  · rcases hdq : c1.dequeueWrite with ⟨_ | d, c2⟩ <;> rfl
  · rfl
  · rcases hdq : c1.dequeueWrite with ⟨_ | d, c2⟩ <;> rfl

theorem closeConnection_stats (t : TableState) (s : ServerStats) (fd : Int) :
    (closeConnection t s fd).2
      = { s with active_connections := fetchSub s.active_connections 1 } := rfl

theorem closeByFd_stats_mono (acc : TableState × ServerStats) (fd : Int) :
    countersLE acc.2 (closeByFd acc fd).2 := by
  unfold closeByFd
  split
  · rw [closeConnection_stats]
    exact ⟨le_refl _, le_refl _, le_refl _, le_refl _, le_refl _⟩
  · exact countersLE_refl acc.2

theorem foldl_closeByFd_stats_mono (fds : List Int) :
    ∀ acc : TableState × ServerStats, countersLE acc.2 ((fds.foldl closeByFd acc).2) := by
  induction fds with
  | nil => intro acc; exact countersLE_refl acc.2
  | cons fd fds ih =>
    intro acc
    rw [List.foldl_cons]
    exact countersLE_trans (closeByFd_stats_mono acc fd) (ih (closeByFd acc fd))

/-- Claim C9 (amended): of the statistics the spec lists, the five true
counters — connections accepted, requests processed, bytes sent, bytes
received, readiness events processed — are monotonically non-decreasing
under every modelled server operation (absent 64-bit counter wraparound);
active connections is a gauge, decremented by closeConnection, so the claim
fails for it (see the counterexample). -/
theorem C9_counters_monotone :
    (∀ (env : AcceptEnv) (t : TableState) (pool : LockFreeMemoryPool)
        (stats : ServerStats), stats.total_connections + 1 < U64 →
      countersLE stats (acceptNewConnection env t pool stats).stats) ∧
    (∀ (c : Connection) (stats : ServerStats) (oracle : List RecvRes),
      stats.total_bytes_received + recvBytesBound oracle < U64 →
      stats.total_requests + oracle.length < U64 →
      countersLE stats (handleClientData c stats oracle).stats) ∧
    (∀ (c : Connection) (stats : ServerStats) (oracle : List SendRes),
      stats.total_bytes_sent + sentBytesBound oracle < U64 →
      countersLE stats (handleClientWrite c stats oracle).stats) ∧
    (∀ (t : TableState) (stats : ServerStats) (fd : Int),
      countersLE stats (closeConnection t stats fd).2) ∧
    (∀ (t : TableState) (stats : ServerStats) (now : Int),
      countersLE stats (cleanupInactiveConnections t stats now).2) ∧
    (∀ (stats : ServerStats) (n : Nat), stats.epoll_events_processed + n < U64 →
      countersLE stats (recordEpollEvents stats n)) := by
  refine ⟨?_, ?_, ?_, ?_, ?_, ?_⟩
  · intro env t pool stats h
    unfold acceptNewConnection
    cases env.clientFd with
    | none => exact countersLE_refl stats
    | some fd =>
      dsimp only
      split
      · exact countersLE_refl stats
      · split
        · exact countersLE_refl stats
        · rcases hp : pool.allocate with ⟨_ | node, pool1⟩ <;> dsimp only
          · split
            · exact countersLE_refl stats
            · exact ⟨fetchAdd_le _ _ h, le_refl _, le_refl _, le_refl _, le_refl _⟩
          · split
            · exact ⟨le_refl _, le_refl _, le_refl _, le_refl _, le_refl _⟩
            · exact ⟨fetchAdd_le _ _ h, le_refl _, le_refl _, le_refl _, le_refl _⟩
  · exact fun c stats oracle h1 h2 => handleClientData_stats_mono oracle c stats h1 h2
  · intro c stats oracle h
    rw [handleClientWrite_stats]
    exact writeLoop_stats_mono oracle c stats h
  · intro t stats fd
    rw [closeConnection_stats]
    exact ⟨le_refl _, le_refl _, le_refl _, le_refl _, le_refl _⟩
  · intro t stats now
    unfold cleanupInactiveConnections
    exact foldl_closeByFd_stats_mono _ (t, stats)
  · intro stats n h
    exact ⟨le_refl _, le_refl _, le_refl _, le_refl _, fetchAdd_le _ _ h⟩

/-- Witness for C9: the monotonicity instances at small concrete states. -/
theorem C9_counters_monotone_witness :
    countersLE ServerStats.initStats
      (acceptNewConnection ⟨some 5, true, true, 0⟩ ⟨[], []⟩ ⟨[0], 0⟩
        ServerStats.initStats).stats ∧
    countersLE ServerStats.initStats
      (handleClientData Connection.initConn ServerStats.initStats
        [RecvRes.wouldBlock]).stats ∧
    countersLE ServerStats.initStats
      (handleClientWrite Connection.initConn ServerStats.initStats
        [SendRes.wouldBlock]).stats ∧
    countersLE ServerStats.initStats
      (recordEpollEvents ServerStats.initStats 3) :=
  ⟨C9_counters_monotone.1 ⟨some 5, true, true, 0⟩ ⟨[], []⟩ ⟨[0], 0⟩
      ServerStats.initStats (by norm_num [U64, ServerStats.initStats]),
   C9_counters_monotone.2.1 Connection.initConn ServerStats.initStats [RecvRes.wouldBlock]
      (by norm_num [U64, ServerStats.initStats, recvBytesBound])
      (by norm_num [U64, ServerStats.initStats]),
   C9_counters_monotone.2.2.1 Connection.initConn ServerStats.initStats [SendRes.wouldBlock]
      (by norm_num [U64, ServerStats.initStats, sentBytesBound]),
   C9_counters_monotone.2.2.2.2.2 ServerStats.initStats 3
      (by norm_num [U64, ServerStats.initStats])⟩

/-- Counterexample to C9 as stated: closeConnection decreases the
active-connections statistic (from 2 to 1 here), so it is not monotonically
non-decreasing. -/
theorem C9_counterexample :
    (closeConnection ⟨[(3, 0)], [3]⟩ ⟨5, 2, 4, 100, 100, 9, 1⟩ 3).2.active_connections
      < (⟨5, 2, 4, 100, 100, 9, 1⟩ : ServerStats).active_connections := by
  decide

end hello
